import Mathlib

/-!
Verification of the span-context lifecycle and header-propagation core of the
go-sensor tracing library.

The definitions below are a shallow embedding of the Go source:

* `SpanContext`, `Clone`, `WithBaggageItem`, `NewRootSpanContext`,
  `NewSpanContext`, `restoreFromW3CTraceContext`, `restoreFromW3CTraceState`,
  `parseW3CInstanaState`, `newW3CTraceContext` embed `span_context.go`;
* `injectTextMap`, `injectHTTP`, `addW3CTraceContext`, `extractTextMap`,
  `parseLevel`, `formatLevel` embed the propagation file.

Parts of the repository that are referenced but whose sources are not included
(the identifier codec `FormatID`/`ParseID`/`FormatLongID`/`ParseLongID`, the
`w3ctrace` adapter package, the random-id generator, and the global
correlation-disable option) are modelled from the specification; each such
definition carries a doc comment starting with `Modelled from the spec:`.
The random id generator and the correlation-disable flag are threaded in as
explicit parameters (`fresh : Nat`, `disable : Bool`), following the spec's
own design note on replacing process-global state by explicit arguments.

Go `map[string]string` values are modelled as association lists with the exact
assignment semantics of a map write (replace the existing key, else append);
Go's `nil` map and the empty map are both modelled as `[]`, which the spec
licenses ("absence and emptiness are both valid and both iterate zero
entries").  Go strings are Lean `String`s manipulated through their character
lists; `strings.ToLower` is modelled character-wise on ASCII letters, which is
exact for all header names involved.
-/

/-- Character-wise ASCII lowercasing, modelling `strings.ToLower` on the ASCII
header names used by the codec. -/
def strLower (s : String) : String :=
  String.mk (s.toList.map Char.toLower)

/-- `s[:n]` on runes, modelling `string([]rune(k)[:n])`. -/
def strTake (n : Nat) (s : String) : String :=
  String.mk (s.toList.take n)

/-- `s[n:]` for ASCII strings, modelling byte slicing `k[n:]`. -/
def strDrop (n : Nat) (s : String) : String :=
  String.mk (s.toList.drop n)

/-- Go string concatenation `a + b`. -/
def strAppend (a b : String) : String :=
  String.mk (a.toList ++ b.toList)

/-- Go `strings.HasPrefix s pfx`. -/
def hasPfx (s pfx : String) : Bool :=
  s.toList.take pfx.toList.length == pfx.toList

/-- Value of a single hexadecimal digit character, both cases accepted. -/
def hexVal (c : Char) : Option Nat :=
  if '0' ≤ c ∧ c ≤ '9' then some (c.toNat - '0'.toNat)
  else if 'a' ≤ c ∧ c ≤ 'f' then some (c.toNat - 'a'.toNat + 10)
  else if 'A' ≤ c ∧ c ≤ 'F' then some (c.toNat - 'A'.toNat + 10)
  else none

/-- Big-endian hex evaluation of a character list; `none` as soon as a
non-hex character occurs.  The empty list evaluates to `0`. -/
def parseHexChars : List Char → Option Nat
  | [] => some 0
  | c :: cs =>
    match hexVal c, parseHexChars cs with
    | some d, some rest => some (d * 16 ^ cs.length + rest)
    | _, _ => none

/-- Little-endian base-16 digit list of `n`, fuel-driven so that it reduces in
the kernel; `hexRevF fuel n` is correct whenever `n ≤ fuel`. -/
def hexRevF : Nat → Nat → List Nat
  | 0, _ => []
  | fuel + 1, n => if n = 0 then [] else n % 16 :: hexRevF fuel (n / 16)

/-- Modelled from the spec: `FormatID` of the identifier codec (not under
`src/`) — canonical lowercase hex, minimal digits, at least one digit. -/
def FormatID (n : Nat) : String :=
  if n = 0 then "0" else String.mk (((hexRevF n n).map Nat.digitChar).reverse)

/-- Modelled from the spec: `ParseID` of the identifier codec (not under
`src/`) — parses hex, failing on the empty string, a non-hex character, or
overflow beyond 64 bits.  `none` stands for the `MalformedID` error. -/
def ParseID (s : String) : Option Nat :=
  if s.toList = [] then none
  else
    match parseHexChars s.toList with
    | none => none
    | some n => if n < 2 ^ 64 then some n else none

/-- Left-pad a hex string with zeroes to 16 digits. -/
def pad16 (s : String) : String :=
  if s.toList.length < 16 then
    strAppend (String.mk (List.replicate (16 - s.toList.length) '0')) s
  else s

/-- Modelled from the spec: `FormatLongID` of the identifier codec (not under
`src/`) — identical to `FormatID lo` when `hi = 0`, otherwise both halves
zero-padded to 16 digits and concatenated. -/
def FormatLongID (hi lo : Nat) : String :=
  if hi = 0 then FormatID lo
  else strAppend (pad16 (FormatID hi)) (pad16 (FormatID lo))

/-- Modelled from the spec: `ParseLongID` of the identifier codec (not under
`src/`) — a string of at most 16 hex digits parses with `hi = 0`; a longer one
splits its last 16 digits into `lo` and the remainder into `hi`; any non-hex
content fails. -/
def ParseLongID (s : String) : Option (Nat × Nat) :=
  if s.toList.length ≤ 16 then
    match ParseID s with
    | none => none
    | some lo => some (0, lo)
  else
    match ParseID (strTake (s.toList.length - 16) s),
          ParseID (strDrop (s.toList.length - 16) s) with
    | some hi, some lo => some (hi, lo)
    | _, _ => none

/-- Modelled from the spec: the flags field of a W3C `traceparent`
(`w3ctrace.Flags`, external adapter package). -/
structure W3CFlags where
  sampled : Bool
deriving DecidableEq, Repr, Inhabited

/-- Modelled from the spec: the parsed fields of a W3C `traceparent` header
(`w3ctrace.Parent`, external adapter package). -/
structure W3CParent where
  version : Nat
  traceID : String
  parentID : String
  flags : W3CFlags
deriving DecidableEq, Repr, Inhabited

/-- Modelled from the spec: the `tracestate` vendor list — ordered
`vendor = value` entries. -/
def W3CState := List (String × String)
deriving DecidableEq, Repr, Inhabited

/-- Modelled from the spec: the wrapped W3C trace-context value
(`w3ctrace.Context`): either the zero value ("no foreign context associated")
or parent fields plus vendor state.  The Go type keeps raw header strings and
re-parses them through `Parent()`/`State()`; since the adapter's contract makes
serialization and parsing inverse, the structured fields are carried
directly. -/
inductive W3CCtx
  | zero
  | ctx (parent : W3CParent) (state : W3CState)
deriving DecidableEq, Repr

instance : Inhabited W3CCtx := ⟨.zero⟩

/-- Modelled from the spec: `w3ctrace.Context.IsZero`. -/
def W3CCtx.IsZero : W3CCtx → Bool
  | .zero => true
  | .ctx _ _ => false

/-- Modelled from the spec: `w3ctrace.Context.Parent()` (the zero value parses
to the zero parent). -/
def W3CCtx.parentOf : W3CCtx → W3CParent
  | .zero => default
  | .ctx p _ => p

/-- Modelled from the spec: `w3ctrace.Context.State()`. -/
def W3CCtx.stateOf : W3CCtx → W3CState
  | .zero => []
  | .ctx _ s => s

/-- Modelled from the spec: assigning `RawParent` the serialization of a
parent value (the state part is kept). -/
def W3CCtx.setParent : W3CCtx → W3CParent → W3CCtx
  | .zero, p => .ctx p []
  | .ctx _ s, p => .ctx p s

/-- Modelled from the spec: `w3ctrace.New` — a context made of the given
parent and an empty state. -/
def w3cNew (p : W3CParent) : W3CCtx := .ctx p []

/-- Modelled from the spec: the known vendor key `in` of the `tracestate`
entry holding native correlation data. -/
def vendorInstana : String := "in"

/-- Modelled from the spec: `Version_Max` of the adapter package. -/
def versionMax : Nat := 0

/-- Modelled from the spec: `State.Fetch` — the value of the first entry with
the given vendor key, if any. -/
def fetchState (st : W3CState) (vendor : String) : Option String :=
  ((st : List (String × String)).find? (fun e => e.1 == vendor)).map (·.2)

/-- Modelled from the spec: `State.Add` — upsert the vendor entry, preserving
all other vendor entries and their relative order. -/
def addState (st : W3CState) (vendor val : String) : W3CState :=
  (vendor, val) :: (st : List (String × String)).filter (fun e => !(e.1 == vendor))

/-- `EUMCorrelationData` of `span_context.go` (field `Type` renamed `typ`, a
Lean keyword). -/
structure EUMCorrelationData where
  typ : String
  id : String
deriving DecidableEq, Repr

instance : Inhabited EUMCorrelationData := ⟨⟨"", ""⟩⟩

/-- `SpanReference` of `span_context.go`. -/
structure SpanReference where
  TraceID : String
  SpanID : String
deriving DecidableEq, Repr, Inhabited

/-- `SpanContext` of `span_context.go`.  Identifiers are the 64-bit values as
naturals; `Baggage` is the Go map as an association list. -/
structure SpanContext where
  TraceIDHi : Nat := 0
  TraceID : Nat := 0
  SpanID : Nat := 0
  ParentID : Nat := 0
  Links : List SpanReference := []
  Sampled : Bool := false
  Suppressed : Bool := false
  Baggage : List (String × String) := []
  W3CContext : W3CCtx := .zero
  ForeignTrace : Bool := false
  Correlation : EUMCorrelationData := default
deriving DecidableEq, Repr

instance : Inhabited SpanContext := ⟨{}⟩

/-- Go map assignment `m[k] = v`: replace the entry of an existing key, else
append a new entry. -/
def mapSet : List (String × String) → String → String → List (String × String)
  | [], k, v => [(k, v)]
  | (k1, v1) :: rest, k, v =>
    if k1 = k then (k, v) :: rest else (k1, v1) :: mapSet rest k v

/-- `SpanContext.Clone` of `span_context.go`: copies the identifier, flag and
foreign-context fields, rebuilds the baggage map entry by entry, and leaves
`Links`, `ForeignTrace` and `Correlation` at their zero values. -/
def SpanContext.Clone (c : SpanContext) : SpanContext :=
  { TraceIDHi := c.TraceIDHi
    TraceID := c.TraceID
    SpanID := c.SpanID
    ParentID := c.ParentID
    Sampled := c.Sampled
    Suppressed := c.Suppressed
    W3CContext := c.W3CContext
    Baggage := c.Baggage.foldl (fun m kv => mapSet m kv.1 kv.2) [] }

/-- `SpanContext.WithBaggageItem` of `span_context.go`. -/
def SpanContext.WithBaggageItem (c : SpanContext) (key val : String) : SpanContext :=
  let res := c.Clone
  { res with Baggage := mapSet res.Baggage key val }

/-- `newW3CTraceContext` of `span_context.go`. -/
def newW3CTraceContext (c : SpanContext) : W3CCtx :=
  w3cNew
    { version := versionMax
      traceID := FormatLongID c.TraceIDHi c.TraceID
      parentID := FormatID c.SpanID
      flags := { sampled := !c.Suppressed } }

/-- `NewRootSpanContext` of `span_context.go`; the single fresh random 64-bit
identifier drawn from `randomID()` is the explicit argument `fresh`. -/
def NewRootSpanContext (fresh : Nat) : SpanContext :=
  let c : SpanContext := { TraceID := fresh, SpanID := fresh }
  { c with W3CContext := newW3CTraceContext c }

/-- `parseW3CInstanaState` of `span_context.go`: split the vendor data at the
first `;`. -/
def parseW3CInstanaState (vendorData : String) : Option SpanReference :=
  let l := vendorData.toList
  if ';' ∈ l then
    some { TraceID := String.mk (l.takeWhile (fun c => !(c == ';')))
           SpanID := String.mk ((l.dropWhile (fun c => !(c == ';'))).tail) }
  else none

/-- `restoreFromW3CTraceState` of `span_context.go`. -/
def restoreFromW3CTraceState (trCtx : W3CCtx) : SpanContext :=
  if trCtx.IsZero then {}
  else
    let c : SpanContext := { W3CContext := trCtx }
    match fetchState trCtx.stateOf vendorInstana with
    | none => c
    | some st =>
      match parseW3CInstanaState st with
      | none => c
      | some ref =>
        match ParseLongID ref.TraceID with
        | none => c
        | some (hi, lo) =>
          match ParseID ref.SpanID with
          | none => c
          | some pid => { c with TraceIDHi := hi, TraceID := lo, SpanID := pid }

/-- `restoreFromW3CTraceContext` of `span_context.go`; the global option
`sensor.options.disableW3CTraceCorrelation` is the explicit argument
`disable`. -/
def restoreFromW3CTraceContext (disable : Bool) (trCtx : W3CCtx) : SpanContext :=
  if trCtx.IsZero then {}
  else if disable then restoreFromW3CTraceState trCtx
  else
    let parent := trCtx.parentOf
    match ParseLongID parent.traceID with
    | none => {}
    | some (hi, lo) =>
      match ParseID parent.parentID with
      | none => {}
      | some pid =>
        { TraceIDHi := hi
          TraceID := lo
          SpanID := pid
          Suppressed := !parent.flags.sampled
          W3CContext := trCtx }

/-- Body of `NewSpanContext` of `span_context.go` after the optional
restoration step: `parent` is the (possibly restored) parent and
`foreignTrace` the flag computed by the caller. -/
def newSpanContextFrom (parent : SpanContext) (foreignTrace : Bool) (fresh : Nat) :
    SpanContext :=
  if parent.TraceIDHi = 0 ∧ parent.TraceID = 0 ∧ parent.SpanID = 0 then
    let c := NewRootSpanContext fresh
    -- preserve the W3C trace context even if it was not used
    if parent.W3CContext.IsZero then c else { c with W3CContext := parent.W3CContext }
  else
    let c0 := parent.Clone
    let c1 := { c0 with SpanID := fresh, ParentID := parent.SpanID, ForeignTrace := foreignTrace }
    if c1.W3CContext.IsZero then { c1 with W3CContext := newW3CTraceContext c1 }
    else
      let wp := { c1.W3CContext.parentOf with parentID := FormatID c1.SpanID }
      let c2 := { c1 with W3CContext := c1.W3CContext.setParent wp }
      if foreignTrace then
        match fetchState c2.W3CContext.stateOf vendorInstana with
        | some ancestor =>
          match parseW3CInstanaState ancestor with
          | some ref => { c2 with Links := c2.Links ++ [ref] }
          | none => c2
        | none => c2
      else c2

/-- `NewSpanContext` of `span_context.go`; `disable` is the correlation-disable
option and `fresh` the value drawn from `randomID()` by whichever branch needs
it (each branch draws exactly once). -/
def NewSpanContext (disable : Bool) (fresh : Nat) (parent : SpanContext) : SpanContext :=
  if parent.TraceIDHi = 0 ∧ parent.TraceID = 0 ∧ parent.SpanID = 0 then
    newSpanContextFrom (restoreFromW3CTraceContext disable parent.W3CContext) (!disable) fresh
  else
    newSpanContextFrom parent false fresh

/-- `FieldT` — the trace ID header name. -/
def fieldT : String := "x-instana-t"

/-- `FieldS` — the span ID header name. -/
def fieldS : String := "x-instana-s"

/-- `FieldL` — the level header name. -/
def fieldL : String := "x-instana-l"

/-- `FieldB` — the baggage header name prefix. -/
def fieldB : String := "x-instana-b-"

/-- `parseLevel` of the propagation file. -/
def parseLevel (s : String) : Bool := s == "0"

/-- `formatLevel` of the propagation file. -/
def formatLevel (sc : SpanContext) : String :=
  if sc.Suppressed then "0" else "1"

/-- Modelled from the spec: the error taxonomy of the carrier boundary
(`opentracing` errors referenced by the propagation file, external package). -/
inductive OTError
  | invalidCarrier
  | spanContextNotFound
  | spanContextCorrupted
deriving DecidableEq, Repr

/-- One step of the `ForeachKey` callback of `extractTraceContext`: classify
the key case-insensitively, parse identifier values (a malformed value aborts
with `CorruptedContext`), read the level, or collect a baggage entry with the
original key casing preserved. -/
def extractStep (sc : SpanContext) (cnt : Nat) (k v : String) :
    Except OTError (SpanContext × Nat) :=
  let lk := strLower k
  if lk = fieldT then
    match ParseID v with
    | none => .error .spanContextCorrupted
    | some tid => .ok ({ sc with TraceID := tid }, cnt + 1)
  else if lk = fieldS then
    match ParseID v with
    | none => .error .spanContextCorrupted
    | some sid => .ok ({ sc with SpanID := sid }, cnt + 1)
  else if lk = fieldL then
    .ok ({ sc with Suppressed := parseLevel v }, cnt)
  else if hasPfx lk fieldB then
    .ok ({ sc with Baggage := mapSet sc.Baggage (strDrop fieldB.toList.length k) v }, cnt)
  else
    .ok (sc, cnt)

/-- The `ForeachKey` loop of `extractTraceContext` over the carrier entries:
threads the context under construction and the trace/span field count, aborting
on the first callback error. -/
def extractTM :
    List (String × String) → SpanContext → Nat → Except OTError (SpanContext × Nat)
  | [], sc, cnt => .ok (sc, cnt)
  | (k, v) :: rest, sc, cnt =>
    match extractStep sc cnt k v with
    | .error e => .error e
    | .ok (sc1, cnt1) => extractTM rest sc1 cnt1

/-- `extractTraceContext` of the propagation file over a text-map carrier:
run the key loop, then fail with `ContextNotFound` when no trace/span key was
seen and with `CorruptedContext` when fewer than two were. -/
def extractTextMap (carrier : List (String × String)) : Except OTError SpanContext :=
  match extractTM carrier { Baggage := [] } 0 with
  | .error e => .error e
  | .ok (sc, cnt) =>
    if cnt = 0 then .error .spanContextNotFound
    else if cnt < 2 then .error .spanContextCorrupted
    else .ok sc

/-- The discovered casings of the four field names, as accumulated by the
initial `ForeachKey` scan of `injectTraceContext`. -/
structure Casing where
  t : String
  s : String
  l : String
  b : String
deriving DecidableEq, Repr

/-- One step of the casing-discovery scan of `injectTraceContext`. -/
def discoverStep (cs : Casing) (k : String) : Casing :=
  let lk := strLower k
  if lk = fieldT then { cs with t := k }
  else if lk = fieldS then { cs with s := k }
  else if lk = fieldL then { cs with l := k }
  else if hasPfx lk fieldB then { cs with b := strTake fieldB.toList.length k }
  else cs

/-- The casing-discovery scan of `injectTraceContext`, defaulting to the
canonical lowercase spellings. -/
def discover (keys : List String) : Casing :=
  keys.foldl discoverStep ⟨fieldT, fieldS, fieldL, fieldB⟩

/-- `injectTraceContext` of the propagation file on a plain text-map carrier
(read/write but not an HTTP header map): discover existing key casings, then
write the trace, span and level fields and one header per baggage entry. -/
def injectTextMap (sc : SpanContext) (carrier : List (String × String)) :
    List (String × String) :=
  let cs := discover (carrier.map Prod.fst)
  let m1 := mapSet carrier cs.t (FormatID sc.TraceID)
  let m2 := mapSet m1 cs.s (FormatID sc.SpanID)
  let m3 := mapSet m2 cs.l (formatLevel sc)
  sc.Baggage.foldl (fun m kv => mapSet m (strAppend cs.b kv.1) kv.2) m3

/-- Modelled from the spec: an HTTP-style header map (`http.Header`).  Header
lookups are case-insensitive, so keys are stored lowercased; Go canonicalizes
them to MIME casing instead, which is observationally equivalent here. -/
def HHeader := List (String × String)
deriving DecidableEq, Repr, Inhabited

/-- Modelled from the spec: `http.Header.Set`. -/
def hSet (h : HHeader) (k v : String) : HHeader :=
  mapSet (h : List (String × String)) (strLower k) v

/-- Modelled from the spec: case-insensitive header read (`http.Header.Get`). -/
def hGet (h : HHeader) (k : String) : Option String :=
  ((h : List (String × String)).find? (fun e => e.1 == strLower k)).map (·.2)

/-- Modelled from the spec: `delete(h, k)` on a header map. -/
def hDel (h : HHeader) (k : String) : HHeader :=
  (h : List (String × String)).filter (fun e => !(e.1 == strLower k))

/-- Modelled from the spec: serialization of the flags of a `traceparent`. -/
def flagsToString (f : W3CFlags) : String :=
  if f.sampled then "01" else "00"

/-- Left-pad a hex string with zeroes to 2 digits. -/
def pad2 (s : String) : String :=
  if s.toList.length < 2 then strAppend "0" s else s

/-- Modelled from the spec: `w3ctrace.Parent.String()` — version, trace id,
parent id and flags, dash-separated. -/
def parentToString (p : W3CParent) : String :=
  strAppend (pad2 (FormatID p.version))
    (strAppend "-"
      (strAppend p.traceID
        (strAppend "-" (strAppend p.parentID (strAppend "-" (flagsToString p.flags))))))

/-- Modelled from the spec: `w3ctrace.State.String()` — comma-separated
`vendor=value` entries. -/
def stateToString : W3CState → String
  | [] => ""
  | e :: rest =>
    rest.foldl (fun acc e2 => strAppend acc (strAppend "," (strAppend e2.1 (strAppend "=" e2.2))))
      (strAppend e.1 (strAppend "=" e.2))

/-- `addW3CTraceContext` of the propagation file: take the context's foreign
context (synthesizing one from the native identifiers when absent), point its
parent id at the current span id, upsert the `in` vendor entry
`hex(traceId);hex(spanId)` into its state, and write the two foreign headers. -/
def addW3CTraceContext (h : HHeader) (sc : SpanContext) : HHeader :=
  let traceID := FormatID sc.TraceID
  let spanID := FormatID sc.SpanID
  let trCtx :=
    if sc.W3CContext.IsZero then
      w3cNew { version := versionMax, traceID := traceID, parentID := spanID,
               flags := { sampled := !sc.Suppressed } }
    else sc.W3CContext
  let p := { trCtx.parentOf with parentID := spanID }
  let st := addState trCtx.stateOf vendorInstana (strAppend traceID (strAppend ";" spanID))
  hSet (hSet h "traceparent" (parentToString p)) "tracestate" (stateToString st)

/-- `injectTraceContext` of the propagation file on an HTTP-header-map carrier:
discover existing casings, delete the discovered trace/span/level keys and
every baggage-prefixed key, write the foreign-context headers, then write the
native fields and baggage. -/
def injectHTTP (sc : SpanContext) (h : HHeader) : HHeader :=
  let cs := discover ((h : List (String × String)).map Prod.fst)
  let h1 := hDel (hDel (hDel h cs.t) cs.s) cs.l
  let h2 : HHeader := (h1 : List (String × String)).filter (fun e => !(hasPfx (strLower e.1) fieldB))
  let h3 := addW3CTraceContext h2 sc
  let h4 := hSet h3 cs.t (FormatID sc.TraceID)
  let h5 := hSet h4 cs.s (FormatID sc.SpanID)
  let h6 := hSet h5 cs.l (formatLevel sc)
  sc.Baggage.foldl (fun hh kv => hSet hh (strAppend cs.b kv.1) kv.2) h6

deriving instance DecidableEq for Except

/-- Whether a carrier entry's key matches the trace-id or span-id field name
case-insensitively (the keys whose occurrences `extractTraceContext` counts in
`fieldCount`). -/
def isTSKey (e : String × String) : Bool :=
  strLower e.1 == fieldT || strLower e.1 == fieldS

/-- The number of carrier entries whose key matches the trace-id or span-id
field name case-insensitively. -/
def countTS (carrier : List (String × String)) : Nat :=
  (carrier.filter isTSKey).length

/-! ## Helper lemmas -/

theorem hexVal_digitChar {d : Nat} (h : d < 16) : hexVal (Nat.digitChar d) = some d := by
  interval_cases d <;> decide

theorem parseHexChars_append (l : List Char) (c : Char) :
    parseHexChars (l ++ [c]) =
      match parseHexChars l, hexVal c with
      | some v, some d => some (16 * v + d)
      | _, _ => none := by
  induction l with
  | nil =>
    simp only [List.nil_append, parseHexChars]
    cases hexVal c <;> simp
  | cons x xs ih =>
    simp only [List.cons_append, parseHexChars, List.append_eq]
    rw [ih]
    cases hx : hexVal x <;> cases hxs : parseHexChars xs <;> cases hc : hexVal c <;>
      simp [List.length_append] <;> ring

theorem parseHexChars_hexRevF {fuel : Nat} :
    ∀ {n : Nat}, n ≤ fuel →
      parseHexChars (((hexRevF fuel n).map Nat.digitChar).reverse) = some n := by
  induction fuel with
  | zero =>
    intro n hn
    interval_cases n
    simp [hexRevF, parseHexChars]
  | succ fuel ih =>
    intro n hn
    by_cases h0 : n = 0
    · subst h0; simp [hexRevF, parseHexChars]
    · have hdiv : n / 16 ≤ fuel := by
        have : n / 16 < n := Nat.div_lt_self (Nat.pos_of_ne_zero h0) (by omega)
        omega
      simp only [hexRevF, if_neg h0, List.map_cons, List.reverse_cons]
      rw [parseHexChars_append, ih hdiv, hexVal_digitChar (Nat.mod_lt n (by omega))]
      simp [Nat.div_add_mod]

theorem ParseID_FormatID {n : Nat} (h : n < 2 ^ 64) : ParseID (FormatID n) = some n := by
  by_cases h0 : n = 0
  · subst h0; decide
  · have hne : (((hexRevF n n).map Nat.digitChar).reverse) ≠ [] := by
      simp only [ne_eq, List.reverse_eq_nil_iff, List.map_eq_nil_iff]
      cases n with
      | zero => exact absurd rfl h0
      | succ m => simp [hexRevF, h0]
    have hlist : (FormatID n).toList = ((hexRevF n n).map Nat.digitChar).reverse := by
      simp [FormatID, if_neg h0, String.toList]
    rw [ParseID, hlist, if_neg hne, parseHexChars_hexRevF (Nat.le_refl n)]
    simp only []
    rw [if_pos h]

theorem mapSet_absent {m : List (String × String)} {k : String} (v : String)
    (h : k ∉ m.map Prod.fst) : mapSet m k v = m ++ [(k, v)] := by
  induction m with
  | nil => rfl
  | cons e rest ih =>
    simp only [List.map_cons, List.mem_cons] at h
    push_neg at h
    simp only [mapSet, if_neg (Ne.symm h.1)]
    rw [ih h.2]
    simp

theorem foldl_mapSet_eq {l : List (String × String)} :
    ∀ {acc : List (String × String)},
      (l.map Prod.fst).Nodup →
      (∀ kv ∈ l, kv.1 ∉ acc.map Prod.fst) →
      l.foldl (fun m kv => mapSet m kv.1 kv.2) acc = acc ++ l := by
  induction l with
  | nil => intro acc _ _; simp
  | cons e rest ih =>
    intro acc hnd hdisj
    simp only [List.map_cons, List.nodup_cons] at hnd
    simp only [List.foldl_cons]
    rw [mapSet_absent e.2 (hdisj e (List.mem_cons_self e rest))]
    rw [ih hnd.2]
    · simp
    · intro kv hkv
      simp only [List.map_append, List.mem_append]
      push_neg
      refine ⟨hdisj kv (List.mem_cons_of_mem e hkv), ?_⟩
      simp only [List.map_cons, List.map_nil, List.mem_singleton]
      intro hk
      exact hnd.1 (hk ▸ List.mem_map_of_mem Prod.fst hkv)

theorem clone_baggage (c : SpanContext) (hnd : (c.Baggage.map Prod.fst).Nodup) :
    c.Clone.Baggage = c.Baggage := by
  simp only [SpanContext.Clone]
  rw [foldl_mapSet_eq hnd (by simp)]
  simp

/-! ## Claim theorems -/

/-- C9: every context returned by `NewRootSpanContext` assigns its one fresh
64-bit identifier to both `TraceID` and `SpanID` (so `SpanID = TraceID`), has
`ParentID = 0`, and carries a synthesized foreign context whose trace id is the
long-format hex of `(TraceIDHi, TraceID)`, whose parent id is the hex of
`SpanID`, and whose sampled flag is the negation of `Suppressed`. -/
theorem newRoot_assigns_fresh_id (fresh : Nat) :
    (NewRootSpanContext fresh).TraceID = fresh ∧
    (NewRootSpanContext fresh).SpanID = fresh ∧
    (NewRootSpanContext fresh).SpanID = (NewRootSpanContext fresh).TraceID ∧
    (NewRootSpanContext fresh).ParentID = 0 ∧
    (NewRootSpanContext fresh).W3CContext =
      W3CCtx.ctx
        { version := versionMax
          traceID := FormatLongID (NewRootSpanContext fresh).TraceIDHi
              (NewRootSpanContext fresh).TraceID
          parentID := FormatID (NewRootSpanContext fresh).SpanID
          flags := { sampled := !(NewRootSpanContext fresh).Suppressed } } [] :=
  ⟨rfl, rfl, rfl, rfl, rfl⟩

/-- C10: `Clone` (and `WithBaggageItem`, which starts from a clone) zeroes
`Links`, `ForeignTrace` and `Correlation`, copies the identifier and flag
fields and the foreign context, and rebuilds the baggage map with the same
entries; `WithBaggageItem` returns a fresh value with the entry upserted, the
receiver staying untouched. -/
theorem clone_withBaggageItem_frame (c : SpanContext) (key val : String)
    (hnd : (c.Baggage.map Prod.fst).Nodup) :
    c.Clone.Links = [] ∧ c.Clone.ForeignTrace = false ∧ c.Clone.Correlation = default ∧
    c.Clone.TraceIDHi = c.TraceIDHi ∧ c.Clone.TraceID = c.TraceID ∧
    c.Clone.SpanID = c.SpanID ∧ c.Clone.ParentID = c.ParentID ∧
    c.Clone.Sampled = c.Sampled ∧ c.Clone.Suppressed = c.Suppressed ∧
    c.Clone.W3CContext = c.W3CContext ∧
    c.Clone.Baggage = c.Baggage ∧
    c.WithBaggageItem key val = { c.Clone with Baggage := mapSet c.Baggage key val } := by
  refine ⟨rfl, rfl, rfl, rfl, rfl, rfl, rfl, rfl, rfl, rfl, clone_baggage c hnd, ?_⟩
  simp only [SpanContext.WithBaggageItem]
  rw [clone_baggage c hnd]

theorem clone_withBaggageItem_frame_w :
    (SpanContext.Clone { Baggage := [("a", "1")] }).Baggage = [("a", "1")] :=
  (clone_withBaggageItem_frame { Baggage := [("a", "1")] } "k" "v"
    (by decide)).2.2.2.2.2.2.2.2.2.2.1

/-- C4: deriving a child from a parent with some non-zero native identifier
never consults the foreign restoration path: the child has `ParentID` equal to
the parent's `SpanID`, the freshly generated `SpanID`, the parent's trace
identifiers unchanged, `ForeignTrace = false` and no span reference in
`Links`. -/
theorem newChild_native_path (disable : Bool) (fresh : Nat) (parent : SpanContext)
    (h : ¬(parent.TraceIDHi = 0 ∧ parent.TraceID = 0 ∧ parent.SpanID = 0)) :
    (NewSpanContext disable fresh parent).ParentID = parent.SpanID ∧
    (NewSpanContext disable fresh parent).SpanID = fresh ∧
    (NewSpanContext disable fresh parent).TraceID = parent.TraceID ∧
    (NewSpanContext disable fresh parent).TraceIDHi = parent.TraceIDHi ∧
    (NewSpanContext disable fresh parent).ForeignTrace = false ∧
    (NewSpanContext disable fresh parent).Links = [] := by
  simp only [NewSpanContext, newSpanContextFrom, if_neg h]
  split <;> simp [SpanContext.Clone]

theorem newChild_native_path_w :
    (NewSpanContext false 9 { TraceID := 7, SpanID := 3 }).ParentID = 3 ∧
    (NewSpanContext false 9 { TraceID := 7, SpanID := 3 }).SpanID = 9 ∧
    (NewSpanContext false 9 { TraceID := 7, SpanID := 3 }).TraceID = 7 ∧
    (NewSpanContext false 9 { TraceID := 7, SpanID := 3 }).TraceIDHi = 0 ∧
    (NewSpanContext false 9 { TraceID := 7, SpanID := 3 }).ForeignTrace = false ∧
    (NewSpanContext false 9 { TraceID := 7, SpanID := 3 }).Links = [] :=
  newChild_native_path false 9 { TraceID := 7, SpanID := 3 } (by decide)

/-! ## String facts for the header codec -/

theorem strToList_mk (l : List Char) : (String.mk l).toList = l := rfl

theorem strAppend_toList (a b : String) :
    (strAppend a b).toList = a.toList ++ b.toList := rfl

theorem strLower_strAppend (a b : String) :
    strLower (strAppend a b) = strAppend (strLower a) (strLower b) := by
  simp [strLower, strAppend, strToList_mk]

theorem strAppend_left_inj (a : String) {x y : String} (h : strAppend a x = strAppend a y) :
    x = y := by
  have hd : a.toList ++ x.toList = a.toList ++ y.toList := congrArg String.data h
  have hxy : x.toList = y.toList := List.append_cancel_left hd
  calc x = String.mk x.toList := rfl
    _ = String.mk y.toList := by rw [hxy]
    _ = y := rfl

theorem strLower_fieldB : strLower fieldB = fieldB := by decide

theorem strLower_bag_key (k : String) :
    strLower (strAppend fieldB k) = strAppend fieldB (strLower k) := by
  rw [strLower_strAppend, strLower_fieldB]

theorem bag_key_length (k : String) :
    (strAppend fieldB k).toList.length = 12 + k.toList.length := by
  have h12 : fieldB.toList.length = 12 := rfl
  show (fieldB.toList ++ k.toList).length = 12 + k.toList.length
  rw [List.length_append, h12]

theorem bag_key_ne_fieldT (k : String) : strAppend fieldB k ≠ fieldT := by
  intro h
  have hl : (strAppend fieldB k).toList.length = fieldT.toList.length := by rw [h]
  rw [bag_key_length] at hl
  have h11 : fieldT.toList.length = 11 := rfl
  omega

theorem bag_key_ne_fieldS (k : String) : strAppend fieldB k ≠ fieldS := by
  intro h
  have hl : (strAppend fieldB k).toList.length = fieldS.toList.length := by rw [h]
  rw [bag_key_length] at hl
  have h11 : fieldS.toList.length = 11 := rfl
  omega

theorem bag_key_ne_fieldL (k : String) : strAppend fieldB k ≠ fieldL := by
  intro h
  have hl : (strAppend fieldB k).toList.length = fieldL.toList.length := by rw [h]
  rw [bag_key_length] at hl
  have h11 : fieldL.toList.length = 11 := rfl
  omega

theorem hasPfx_bag_key (k : String) : hasPfx (strAppend fieldB k) fieldB = true := by
  simp only [hasPfx, strAppend_toList, List.take_left, beq_iff_eq]

theorem strDrop_bag_key (k : String) :
    strDrop fieldB.toList.length (strAppend fieldB k) = k := by
  simp only [strDrop, strAppend_toList, List.drop_left]
  rfl

/-! ## Behaviour of the extraction loop -/

theorem extractStep_t {sc : SpanContext} {cnt : Nat} {k v : String} {tid : Nat}
    (hk : strLower k = fieldT) (hp : ParseID v = some tid) :
    extractStep sc cnt k v = .ok ({ sc with TraceID := tid }, cnt + 1) := by
  simp only [extractStep]
  rw [hk, if_pos rfl, hp]

theorem extractStep_t_bad {sc : SpanContext} {cnt : Nat} {k v : String}
    (hk : strLower k = fieldT) (hp : ParseID v = none) :
    extractStep sc cnt k v = .error .spanContextCorrupted := by
  simp only [extractStep]
  rw [hk, if_pos rfl, hp]

theorem extractStep_s {sc : SpanContext} {cnt : Nat} {k v : String} {sid : Nat}
    (hk : strLower k = fieldS) (hp : ParseID v = some sid) :
    extractStep sc cnt k v = .ok ({ sc with SpanID := sid }, cnt + 1) := by
  simp only [extractStep]
  rw [hk, if_neg (by decide : ¬(fieldS = fieldT)), if_pos rfl, hp]

theorem extractStep_s_bad {sc : SpanContext} {cnt : Nat} {k v : String}
    (hk : strLower k = fieldS) (hp : ParseID v = none) :
    extractStep sc cnt k v = .error .spanContextCorrupted := by
  simp only [extractStep]
  rw [hk, if_neg (by decide : ¬(fieldS = fieldT)), if_pos rfl, hp]

theorem extractStep_l {sc : SpanContext} {cnt : Nat} {k v : String}
    (hk : strLower k = fieldL) :
    extractStep sc cnt k v = .ok ({ sc with Suppressed := parseLevel v }, cnt) := by
  simp only [extractStep]
  rw [hk, if_neg (by decide : ¬(fieldL = fieldT)), if_neg (by decide : ¬(fieldL = fieldS)),
    if_pos rfl]

theorem extractStep_bag {sc : SpanContext} {cnt : Nat} {k v : String}
    (h1 : ¬ strLower k = fieldT) (h2 : ¬ strLower k = fieldS) (h3 : ¬ strLower k = fieldL)
    (h4 : hasPfx (strLower k) fieldB = true) :
    extractStep sc cnt k v =
      .ok ({ sc with Baggage := mapSet sc.Baggage (strDrop fieldB.toList.length k) v }, cnt) := by
  simp only [extractStep, if_neg h1, if_neg h2, if_neg h3, h4, if_pos rfl, if_true]

theorem extractStep_not_ts {sc : SpanContext} {cnt : Nat} {k v : String}
    (h1 : ¬ strLower k = fieldT) (h2 : ¬ strLower k = fieldS) :
    ∃ sc1, extractStep sc cnt k v = .ok (sc1, cnt) := by
  simp only [extractStep, if_neg h1, if_neg h2]
  split_ifs <;> exact ⟨_, rfl⟩

theorem extractStep_skip {sc : SpanContext} {cnt : Nat} {k v : String}
    (h1 : ¬ strLower k = fieldT) (h2 : ¬ strLower k = fieldS) (h3 : ¬ strLower k = fieldL)
    (h4 : hasPfx (strLower k) fieldB = false) :
    extractStep sc cnt k v = .ok (sc, cnt) := by
  simp only [extractStep, if_neg h1, if_neg h2, if_neg h3, h4]
  rfl

theorem countTS_cons (e : String × String) (l : List (String × String)) :
    countTS (e :: l) = countTS l + if isTSKey e then 1 else 0 := by
  simp only [countTS, List.filter_cons]
  cases h : isTSKey e <;> simp [h]

theorem extractTM_all_parse :
    ∀ (l : List (String × String)) (sc : SpanContext) (cnt : Nat),
      (∀ e ∈ l, isTSKey e = true → (ParseID e.2).isSome) →
      ∃ sc1, extractTM l sc cnt = .ok (sc1, cnt + countTS l) := by
  intro l
  induction l with
  | nil => intro sc cnt _; exact ⟨sc, by simp [extractTM, countTS]⟩
  | cons e rest ih =>
    obtain ⟨k, v⟩ := e
    intro sc cnt hall
    have hrest : ∀ e ∈ rest, isTSKey e = true → (ParseID e.2).isSome :=
      fun e he hts => hall e (List.mem_cons_of_mem _ he) hts
    by_cases ht : strLower k = fieldT
    · have hts : isTSKey (k, v) = true := by simp [isTSKey, ht]
      obtain ⟨tid, hp⟩ := Option.isSome_iff_exists.mp (hall _ (List.mem_cons_self _ _) hts)
      obtain ⟨sc1, h1⟩ := ih { sc with TraceID := tid } (cnt + 1) hrest
      refine ⟨sc1, ?_⟩
      rw [countTS_cons, if_pos hts]
      simp only [extractTM, extractStep_t ht hp]
      rw [h1]
      congr 2
      omega
    · by_cases hs : strLower k = fieldS
      · have hts : isTSKey (k, v) = true := by simp [isTSKey, hs]
        obtain ⟨sid, hp⟩ := Option.isSome_iff_exists.mp (hall _ (List.mem_cons_self _ _) hts)
        obtain ⟨sc1, h1⟩ := ih { sc with SpanID := sid } (cnt + 1) hrest
        refine ⟨sc1, ?_⟩
        rw [countTS_cons, if_pos hts]
        simp only [extractTM, extractStep_s hs hp]
        rw [h1]
        congr 2
        omega
      · have hts : isTSKey (k, v) = false := by
          simp [isTSKey, ht, hs]
        obtain ⟨sc2, h2⟩ := @extractStep_not_ts sc cnt k v ht hs
        obtain ⟨sc1, h1⟩ := ih sc2 cnt hrest
        refine ⟨sc1, ?_⟩
        rw [countTS_cons, if_neg (by simp [hts])]
        simp only [extractTM, h2]
        simpa using h1

theorem extractTM_bad :
    ∀ (l : List (String × String)) (sc : SpanContext) (cnt : Nat),
      (∃ e ∈ l, isTSKey e = true ∧ ParseID e.2 = none) →
      extractTM l sc cnt = .error .spanContextCorrupted := by
  intro l
  induction l with
  | nil => intro sc cnt h; obtain ⟨e, he, _⟩ := h; exact absurd he (List.not_mem_nil e)
  | cons e rest ih =>
    obtain ⟨k, v⟩ := e
    intro sc cnt h
    obtain ⟨e1, he1, hts1, hbad1⟩ := h
    rcases List.mem_cons.mp he1 with heq | hmem
    · subst heq
      have : strLower k = fieldT ∨ strLower k = fieldS := by
        simpa [isTSKey] using hts1
      rcases this with ht | hs
      · simp only [extractTM, extractStep_t_bad ht hbad1]
      · simp only [extractTM, extractStep_s_bad hs hbad1]
    · by_cases ht : strLower k = fieldT
      · cases hp : ParseID v with
        | none => simp only [extractTM, extractStep_t_bad ht hp]
        | some tid =>
          simp only [extractTM, extractStep_t ht hp]
          exact ih _ _ ⟨e1, hmem, hts1, hbad1⟩
      · by_cases hs : strLower k = fieldS
        · cases hp : ParseID v with
          | none => simp only [extractTM, extractStep_s_bad hs hp]
          | some sid =>
            simp only [extractTM, extractStep_s hs hp]
            exact ih _ _ ⟨e1, hmem, hts1, hbad1⟩
        · obtain ⟨sc2, h2⟩ := @extractStep_not_ts sc cnt k v ht hs
          simp only [extractTM, h2]
          exact ih _ _ ⟨e1, hmem, hts1, hbad1⟩

/-- C1 (amended): extraction counts key occurrences matching the trace-id or
span-id field case-insensitively rather than distinct fields: zero matching
keys fail with `ContextNotFound`; exactly one matching key fails with
`CorruptedContext` (whether or not its value parses); two or more matching
keys succeed when every matching value parses as hex; and any matching value
that does not parse as hex fails with `CorruptedContext`. -/
theorem extract_fieldcount_trichotomy (carrier : List (String × String)) :
    (countTS carrier = 0 → extractTextMap carrier = .error .spanContextNotFound) ∧
    (countTS carrier = 1 → extractTextMap carrier = .error .spanContextCorrupted) ∧
    (2 ≤ countTS carrier → (∀ e ∈ carrier, isTSKey e = true → (ParseID e.2).isSome) →
      ∃ sc, extractTextMap carrier = .ok sc) ∧
    ((∃ e ∈ carrier, isTSKey e = true ∧ ParseID e.2 = none) →
      extractTextMap carrier = .error .spanContextCorrupted) := by
  have hbad : (∃ e ∈ carrier, isTSKey e = true ∧ ParseID e.2 = none) →
      extractTextMap carrier = .error .spanContextCorrupted := by
    intro h
    simp only [extractTextMap, extractTM_bad carrier _ 0 h]
  refine ⟨?_, ?_, ?_, hbad⟩
  · intro hc
    have hnone : carrier.filter isTSKey = [] := List.length_eq_zero.mp hc
    have hall : ∀ e ∈ carrier, isTSKey e = true → (ParseID e.2).isSome := by
      intro e he hts
      exact absurd (hnone ▸ List.mem_filter.mpr ⟨he, hts⟩) (List.not_mem_nil e)
    obtain ⟨sc1, h1⟩ := extractTM_all_parse carrier { Baggage := [] } 0 hall
    simp only [extractTextMap, h1, hc]
    norm_num
  · intro hc
    by_cases hall : ∀ e ∈ carrier, isTSKey e = true → (ParseID e.2).isSome
    · obtain ⟨sc1, h1⟩ := extractTM_all_parse carrier { Baggage := [] } 0 hall
      simp only [extractTextMap, h1, hc]
      norm_num
    · push_neg at hall
      obtain ⟨e, he, hts, hbad1⟩ := hall
      exact hbad ⟨e, he, hts, Option.not_isSome_iff_eq_none.mp hbad1⟩
  · intro hc hall
    obtain ⟨sc1, h1⟩ := extractTM_all_parse carrier { Baggage := [] } 0 hall
    refine ⟨sc1, ?_⟩
    simp only [extractTextMap, h1]
    rw [if_neg (by omega), if_neg (by omega)]

theorem extract_fieldcount_trichotomy_w :
    extractTextMap [("other", "b")] = .error .spanContextNotFound ∧
    extractTextMap [("x-instana-t", "1a")] = .error .spanContextCorrupted :=
  ⟨(extract_fieldcount_trichotomy [("other", "b")]).1 (by decide),
   (extract_fieldcount_trichotomy [("x-instana-t", "1a")]).2.1 (by decide)⟩

/-- C1 counterexample: a carrier holding two case-variants of the trace-id
field and no span-id field at all makes extraction succeed (the occurrence
count reaches two), while the claim — exactly one of the two fields found —
demands a `CorruptedContext` failure. -/
theorem extract_duplicate_trace_key_cex :
    extractTextMap [("x-instana-t", "1a"), ("X-INSTANA-T", "2b")] =
      .ok { TraceID := 43, Baggage := [] } ∧
    ([("x-instana-t", "1a"), ("X-INSTANA-T", "2b")].all
      (fun e => !(strLower e.1 == fieldS))) = true := by
  constructor
  · decide
  · decide

/-- C5: with correlation disabled, restoration reads nothing from the foreign
parent fields: it looks up the `in` vendor key in the foreign state; when the
key is absent or its value does not parse as `traceId;spanId`, the result
holds only the foreign context with no native identifiers; when it parses, the
native identifiers come from the vendor value. -/
theorem restoreFromState_vendor_cases (p : W3CParent) (st : W3CState) :
    (fetchState st vendorInstana = none →
      restoreFromW3CTraceState (.ctx p st) = { W3CContext := .ctx p st }) ∧
    (∀ v, fetchState st vendorInstana = some v → parseW3CInstanaState v = none →
      restoreFromW3CTraceState (.ctx p st) = { W3CContext := .ctx p st }) ∧
    (∀ v ref, fetchState st vendorInstana = some v → parseW3CInstanaState v = some ref →
      ParseLongID ref.TraceID = none →
      restoreFromW3CTraceState (.ctx p st) = { W3CContext := .ctx p st }) ∧
    (∀ v ref hi lo, fetchState st vendorInstana = some v →
      parseW3CInstanaState v = some ref → ParseLongID ref.TraceID = some (hi, lo) →
      ParseID ref.SpanID = none →
      restoreFromW3CTraceState (.ctx p st) = { W3CContext := .ctx p st }) ∧
    (∀ v ref hi lo pid, fetchState st vendorInstana = some v →
      parseW3CInstanaState v = some ref → ParseLongID ref.TraceID = some (hi, lo) →
      ParseID ref.SpanID = some pid →
      restoreFromW3CTraceState (.ctx p st) =
        { TraceIDHi := hi, TraceID := lo, SpanID := pid, W3CContext := .ctx p st }) := by
  refine ⟨?_, ?_, ?_, ?_, ?_⟩
  · intro hf
    simp [restoreFromW3CTraceState, W3CCtx.IsZero, W3CCtx.stateOf, hf]
  · intro v hf hp
    simp [restoreFromW3CTraceState, W3CCtx.IsZero, W3CCtx.stateOf, hf, hp]
  · intro v ref hf hp hT
    simp [restoreFromW3CTraceState, W3CCtx.IsZero, W3CCtx.stateOf, hf, hp, hT]
  · intro v ref hi lo hf hp hT hP
    simp [restoreFromW3CTraceState, W3CCtx.IsZero, W3CCtx.stateOf, hf, hp, hT, hP]
  · intro v ref hi lo pid hf hp hT hP
    simp [restoreFromW3CTraceState, W3CCtx.IsZero, W3CCtx.stateOf, hf, hp, hT, hP]

theorem restoreFromState_vendor_cases_w :
    restoreFromW3CTraceState (.ctx ⟨0, "zz", "1", ⟨true⟩⟩ [("in", "1a;2b")]) =
      { TraceIDHi := 0, TraceID := 26, SpanID := 43,
        W3CContext := .ctx ⟨0, "zz", "1", ⟨true⟩⟩ [("in", "1a;2b")] } :=
  (restoreFromState_vendor_cases ⟨0, "zz", "1", ⟨true⟩⟩ [("in", "1a;2b")]).2.2.2.2
    "1a;2b" ⟨"1a", "2b"⟩ 0 26 43 (by decide) (by decide) (by decide) (by decide)

/-! ## The clone branch of child derivation -/

theorem newSpanContextFrom_clone_fields (parent : SpanContext) (ft : Bool) (fresh : Nat)
    (hnz : ¬(parent.TraceIDHi = 0 ∧ parent.TraceID = 0 ∧ parent.SpanID = 0)) :
    (newSpanContextFrom parent ft fresh).TraceIDHi = parent.TraceIDHi ∧
    (newSpanContextFrom parent ft fresh).TraceID = parent.TraceID ∧
    (newSpanContextFrom parent ft fresh).ParentID = parent.SpanID ∧
    (newSpanContextFrom parent ft fresh).SpanID = fresh ∧
    (newSpanContextFrom parent ft fresh).Suppressed = parent.Suppressed ∧
    (newSpanContextFrom parent ft fresh).ForeignTrace = ft := by
  simp only [newSpanContextFrom, if_neg hnz]
  repeat' split
  all_goals exact ⟨rfl, rfl, rfl, rfl, rfl, rfl⟩

theorem newSpanContextFrom_clone_links (parent : SpanContext) (fresh : Nat)
    (p : W3CParent) (st : W3CState)
    (hnz : ¬(parent.TraceIDHi = 0 ∧ parent.TraceID = 0 ∧ parent.SpanID = 0))
    (hw : parent.W3CContext = .ctx p st) :
    (∀ v ref, fetchState st vendorInstana = some v → parseW3CInstanaState v = some ref →
      (newSpanContextFrom parent true fresh).Links = [ref]) ∧
    (fetchState st vendorInstana = none →
      (newSpanContextFrom parent true fresh).Links = []) ∧
    (∀ v, fetchState st vendorInstana = some v → parseW3CInstanaState v = none →
      (newSpanContextFrom parent true fresh).Links = []) := by
  refine ⟨?_, ?_, ?_⟩
  · intro v ref hf hp
    simp [newSpanContextFrom, if_neg hnz, SpanContext.Clone, hw, W3CCtx.IsZero,
      W3CCtx.setParent, W3CCtx.stateOf, hf, hp]
  · intro hf
    simp [newSpanContextFrom, if_neg hnz, SpanContext.Clone, hw, W3CCtx.IsZero,
      W3CCtx.setParent, W3CCtx.stateOf, hf]
  · intro v hf hp
    simp [newSpanContextFrom, if_neg hnz, SpanContext.Clone, hw, W3CCtx.IsZero,
      W3CCtx.setParent, W3CCtx.stateOf, hf, hp]

/-- C3: deriving a child from a parent with all-zero native identifiers, a
non-zero foreign context whose parent fields parse (to a non-zero identifier
triple, as required of a valid `traceparent`), and correlation enabled,
produces native identifiers from the parsed foreign trace/parent ids, the
suppressed flag as the negation of the foreign sampled flag, the fresh span
id, and `ForeignTrace = true`. -/
theorem newChild_foreign_valid (fresh : Nat) (parent : SpanContext) (p : W3CParent)
    (st : W3CState) (hi lo pid : Nat)
    (hz1 : parent.TraceIDHi = 0) (hz2 : parent.TraceID = 0) (hz3 : parent.SpanID = 0)
    (hw : parent.W3CContext = .ctx p st)
    (hT : ParseLongID p.traceID = some (hi, lo))
    (hP : ParseID p.parentID = some pid)
    (hnz : ¬(hi = 0 ∧ lo = 0 ∧ pid = 0)) :
    (NewSpanContext false fresh parent).TraceIDHi = hi ∧
    (NewSpanContext false fresh parent).TraceID = lo ∧
    (NewSpanContext false fresh parent).ParentID = pid ∧
    (NewSpanContext false fresh parent).SpanID = fresh ∧
    (NewSpanContext false fresh parent).Suppressed = (!p.flags.sampled) ∧
    (NewSpanContext false fresh parent).ForeignTrace = true := by
  have hr : restoreFromW3CTraceContext false parent.W3CContext =
      { TraceIDHi := hi, TraceID := lo, SpanID := pid,
        Suppressed := !p.flags.sampled, W3CContext := .ctx p st } := by
    rw [hw, restoreFromW3CTraceContext, if_neg (by simp [W3CCtx.IsZero])]
    simp [W3CCtx.parentOf, hT, hP]
  rw [NewSpanContext, if_pos ⟨hz1, hz2, hz3⟩, hr]
  exact newSpanContextFrom_clone_fields _ _ fresh (by exact hnz)

theorem newChild_foreign_valid_w :
    (NewSpanContext false 7 { W3CContext := .ctx ⟨0, "1a", "2b", ⟨true⟩⟩ [] }).TraceIDHi = 0 ∧
    (NewSpanContext false 7 { W3CContext := .ctx ⟨0, "1a", "2b", ⟨true⟩⟩ [] }).TraceID = 26 ∧
    (NewSpanContext false 7 { W3CContext := .ctx ⟨0, "1a", "2b", ⟨true⟩⟩ [] }).ParentID = 43 ∧
    (NewSpanContext false 7 { W3CContext := .ctx ⟨0, "1a", "2b", ⟨true⟩⟩ [] }).SpanID = 7 ∧
    (NewSpanContext false 7 { W3CContext := .ctx ⟨0, "1a", "2b", ⟨true⟩⟩ [] }).Suppressed = false ∧
    (NewSpanContext false 7 { W3CContext := .ctx ⟨0, "1a", "2b", ⟨true⟩⟩ [] }).ForeignTrace = true :=
  newChild_foreign_valid 7 { W3CContext := .ctx ⟨0, "1a", "2b", ⟨true⟩⟩ [] }
    ⟨0, "1a", "2b", ⟨true⟩⟩ [] 0 26 43 rfl rfl rfl rfl (by decide) (by decide) (by decide)

/-- C6: when the derived context is marked foreign (all-zero native parent,
correlation enabled, restoration succeeding with non-zero identifiers) and the
foreign state's `in` vendor entry parses as `traceId;spanId` at the first
semicolon, exactly one `SpanReference` with those two parts is appended to
`Links`; when the vendor key is absent or its value has no semicolon, `Links`
gains no entry. -/
theorem newChild_foreign_link_ref (fresh : Nat) (parent : SpanContext) (p : W3CParent)
    (st : W3CState) (hi lo pid : Nat)
    (hz1 : parent.TraceIDHi = 0) (hz2 : parent.TraceID = 0) (hz3 : parent.SpanID = 0)
    (hw : parent.W3CContext = .ctx p st)
    (hT : ParseLongID p.traceID = some (hi, lo))
    (hP : ParseID p.parentID = some pid)
    (hnz : ¬(hi = 0 ∧ lo = 0 ∧ pid = 0)) :
    (∀ v ref, fetchState st vendorInstana = some v → parseW3CInstanaState v = some ref →
      (NewSpanContext false fresh parent).Links = [ref]) ∧
    (fetchState st vendorInstana = none → (NewSpanContext false fresh parent).Links = []) ∧
    (∀ v, fetchState st vendorInstana = some v → parseW3CInstanaState v = none →
      (NewSpanContext false fresh parent).Links = []) := by
  have hr : restoreFromW3CTraceContext false parent.W3CContext =
      { TraceIDHi := hi, TraceID := lo, SpanID := pid,
        Suppressed := !p.flags.sampled, W3CContext := .ctx p st } := by
    rw [hw, restoreFromW3CTraceContext, if_neg (by simp [W3CCtx.IsZero])]
    simp [W3CCtx.parentOf, hT, hP]
  rw [NewSpanContext, if_pos ⟨hz1, hz2, hz3⟩, hr]
  exact newSpanContextFrom_clone_links _ fresh p st (by exact hnz) rfl

theorem newChild_foreign_link_ref_w :
    (NewSpanContext false 7
      { W3CContext := .ctx ⟨0, "1a", "2b", ⟨true⟩⟩ [("in", "3;4")] }).Links =
      [⟨"3", "4"⟩] :=
  (newChild_foreign_link_ref 7
    { W3CContext := .ctx ⟨0, "1a", "2b", ⟨true⟩⟩ [("in", "3;4")] }
    ⟨0, "1a", "2b", ⟨true⟩⟩ [("in", "3;4")] 0 26 43 rfl rfl rfl rfl (by decide) (by decide)
    (by decide)).1 "3;4" ⟨"3", "4"⟩ (by decide) (by decide)

/-! ## Root derivation and foreign-context preservation -/

theorem restoreState_w3c (p : W3CParent) (st : W3CState) :
    (restoreFromW3CTraceState (.ctx p st)).W3CContext = .ctx p st := by
  rw [restoreFromW3CTraceState, if_neg (by simp [W3CCtx.IsZero])]
  repeat' split
  all_goals rfl

/-- C2 (amended): for a parent with all-zero native identifiers whose
restoration yields no native identifiers, `NewSpanContext` produces a root
context, and the parent's foreign context is copied onto that root exactly
when restoration retained it: always in the correlation-disabled path; in the
correlation-enabled path when the foreign parent fields parse (necessarily to
all-zero identifiers for restoration to yield none), where the retained
foreign context is likewise copied onto the root; but on a parse failure of
the foreign parent fields restoration returns the fully empty context —
foreign context included — so the root keeps its freshly synthesized foreign
context and the parent's one is discarded. -/
theorem newChild_root_foreign_preservation (fresh : Nat) (parent : SpanContext)
    (hz1 : parent.TraceIDHi = 0) (hz2 : parent.TraceID = 0) (hz3 : parent.SpanID = 0) :
    (∀ p st, parent.W3CContext = .ctx p st →
      (restoreFromW3CTraceState parent.W3CContext).TraceIDHi = 0 →
      (restoreFromW3CTraceState parent.W3CContext).TraceID = 0 →
      (restoreFromW3CTraceState parent.W3CContext).SpanID = 0 →
      NewSpanContext true fresh parent =
        { NewRootSpanContext fresh with W3CContext := parent.W3CContext }) ∧
    (restoreFromW3CTraceContext false parent.W3CContext = {} →
      NewSpanContext false fresh parent = NewRootSpanContext fresh) ∧
    (∀ p st, parent.W3CContext = .ctx p st →
      ParseLongID p.traceID = some (0, 0) →
      ParseID p.parentID = some 0 →
      NewSpanContext false fresh parent =
        { NewRootSpanContext fresh with W3CContext := parent.W3CContext }) := by
  refine ⟨?_, ?_, ?_⟩
  · intro p st hw h0 h1 h2
    rw [NewSpanContext, if_pos ⟨hz1, hz2, hz3⟩]
    have hres : restoreFromW3CTraceContext true parent.W3CContext =
        restoreFromW3CTraceState parent.W3CContext := by
      rw [hw, restoreFromW3CTraceContext, if_neg (by simp [W3CCtx.IsZero]), if_pos rfl]
    rw [hres, newSpanContextFrom, if_pos ⟨h0, h1, h2⟩]
    have hwr : (restoreFromW3CTraceState parent.W3CContext).W3CContext =
        parent.W3CContext := by
      rw [hw]
      exact restoreState_w3c p st
    rw [if_neg (by rw [hwr, hw]; simp [W3CCtx.IsZero]), hwr]
  · intro hres
    rw [NewSpanContext, if_pos ⟨hz1, hz2, hz3⟩, hres, newSpanContextFrom,
      if_pos ⟨rfl, rfl, rfl⟩]
    simp [W3CCtx.IsZero]
  · intro p st hw hT hP
    rw [NewSpanContext, if_pos ⟨hz1, hz2, hz3⟩]
    have hr : restoreFromW3CTraceContext false parent.W3CContext =
        { Suppressed := !p.flags.sampled, W3CContext := .ctx p st } := by
      rw [hw, restoreFromW3CTraceContext, if_neg (by simp [W3CCtx.IsZero])]
      simp [W3CCtx.parentOf, hT, hP]
    rw [hr, newSpanContextFrom, if_pos ⟨rfl, rfl, rfl⟩, hw]
    rw [if_neg (by simp [W3CCtx.IsZero])]

theorem newChild_root_foreign_preservation_w :
    NewSpanContext true 5 { W3CContext := .ctx ⟨0, "zz", "1", ⟨true⟩⟩ [] } =
      { NewRootSpanContext 5 with W3CContext := .ctx ⟨0, "zz", "1", ⟨true⟩⟩ [] } ∧
    NewSpanContext false 6 { W3CContext := .ctx ⟨0, "0", "0", ⟨true⟩⟩ [] } =
      { NewRootSpanContext 6 with W3CContext := .ctx ⟨0, "0", "0", ⟨true⟩⟩ [] } :=
  ⟨(newChild_root_foreign_preservation 5 { W3CContext := .ctx ⟨0, "zz", "1", ⟨true⟩⟩ [] }
      rfl rfl rfl).1 ⟨0, "zz", "1", ⟨true⟩⟩ [] rfl (by decide) (by decide) (by decide),
   (newChild_root_foreign_preservation 6 { W3CContext := .ctx ⟨0, "0", "0", ⟨true⟩⟩ [] }
      rfl rfl rfl).2.2 ⟨0, "0", "0", ⟨true⟩⟩ [] rfl (by decide) (by decide)⟩

/-- C2 counterexample: with correlation enabled and a non-zero foreign context
whose trace id does not parse (`"zz"`), restoration returns the fully empty
context, and `NewSpanContext` yields a plain fresh root whose foreign context
is the newly synthesized one — the parent's foreign context is discarded, not
copied onto the root as the claim states. -/
theorem newChild_drops_unparsed_foreign_cex :
    restoreFromW3CTraceContext false (.ctx ⟨0, "zz", "1", ⟨true⟩⟩ []) = {} ∧
    NewSpanContext false 5 { W3CContext := .ctx ⟨0, "zz", "1", ⟨true⟩⟩ [] } =
      NewRootSpanContext 5 ∧
    (NewRootSpanContext 5).W3CContext ≠ .ctx ⟨0, "zz", "1", ⟨true⟩⟩ [] :=
  ⟨by decide, by decide, by decide⟩

/-- C8: injecting `traceId=26, spanId=99, suppressed=false` into an empty
HTTP-header-map carrier sets `x-instana-t=1a`, `x-instana-s=63`,
`x-instana-l=1`, and writes non-empty `traceparent`/`tracestate` headers whose
`tracestate` holds exactly the upserted vendor entry `in=1a;63` (the carrier
being empty, there are no other vendor entries to preserve). -/
theorem injectHTTP_example :
    injectHTTP { TraceID := 26, SpanID := 99, Suppressed := false } [] =
      [("traceparent", "00-1a-63-01"), ("tracestate", "in=1a;63"),
       ("x-instana-t", "1a"), ("x-instana-s", "63"), ("x-instana-l", "1")] ∧
    hGet (injectHTTP { TraceID := 26, SpanID := 99, Suppressed := false } [])
      "x-instana-t" = some "1a" ∧
    hGet (injectHTTP { TraceID := 26, SpanID := 99, Suppressed := false } [])
      "x-instana-s" = some "63" ∧
    hGet (injectHTTP { TraceID := 26, SpanID := 99, Suppressed := false } [])
      "x-instana-l" = some "1" ∧
    hGet (injectHTTP { TraceID := 26, SpanID := 99, Suppressed := false } [])
      "traceparent" = some "00-1a-63-01" ∧ ("00-1a-63-01" : String) ≠ "" ∧
    hGet (injectHTTP { TraceID := 26, SpanID := 99, Suppressed := false } [])
      "tracestate" = some "in=1a;63" ∧ ("in=1a;63" : String) ≠ "" := by
  refine ⟨by decide, by decide, by decide, by decide, by decide, by decide, by decide, by decide⟩

/-! ## Injection on a plain text-map carrier -/

theorem strLower_fieldT : strLower fieldT = fieldT := by decide

theorem strLower_fieldS : strLower fieldS = fieldS := by decide

theorem strLower_fieldL : strLower fieldL = fieldL := by decide

theorem discoverStep_skip {cs : Casing} {k : String}
    (h1 : ¬ strLower k = fieldT) (h2 : ¬ strLower k = fieldS) (h3 : ¬ strLower k = fieldL)
    (h4 : hasPfx (strLower k) fieldB = false) :
    discoverStep cs k = cs := by
  simp only [discoverStep, if_neg h1, if_neg h2, if_neg h3, h4]
  rfl

theorem discover_free (keys : List String)
    (h : ∀ k ∈ keys, ¬ strLower k = fieldT ∧ ¬ strLower k = fieldS ∧
      ¬ strLower k = fieldL ∧ hasPfx (strLower k) fieldB = false) :
    discover keys = ⟨fieldT, fieldS, fieldL, fieldB⟩ := by
  suffices hgen : ∀ cs : Casing, keys.foldl discoverStep cs = cs from hgen _
  induction keys with
  | nil => intro cs; rfl
  | cons k rest ih =>
    intro cs
    obtain ⟨h1, h2, h3, h4⟩ := h k (List.mem_cons_self _ _)
    rw [List.foldl_cons, discoverStep_skip h1 h2 h3 h4]
    exact ih (fun k1 hk1 => h k1 (List.mem_cons_of_mem _ hk1)) cs

theorem not_mem_keys_of_free {carrier : List (String × String)} {key : String}
    (hfree : ∀ e ∈ carrier, ¬ strLower e.1 = fieldT ∧ ¬ strLower e.1 = fieldS ∧
      ¬ strLower e.1 = fieldL ∧ hasPfx (strLower e.1) fieldB = false)
    (hkey : strLower key = fieldT ∨ strLower key = fieldS ∨ strLower key = fieldL ∨
      hasPfx (strLower key) fieldB = true) :
    key ∉ carrier.map Prod.fst := by
  intro hmem
  obtain ⟨e, he, heq⟩ := List.mem_map.mp hmem
  obtain ⟨h1, h2, h3, h4⟩ := hfree e he
  rw [heq] at h1 h2 h3 h4
  rcases hkey with h | h | h | h
  · exact h1 h
  · exact h2 h
  · exact h3 h
  · rw [h4] at h
    exact Bool.false_ne_true h

theorem injectTextMap_free (sc : SpanContext) (carrier : List (String × String))
    (hfree : ∀ e ∈ carrier, ¬ strLower e.1 = fieldT ∧ ¬ strLower e.1 = fieldS ∧
      ¬ strLower e.1 = fieldL ∧ hasPfx (strLower e.1) fieldB = false)
    (hnd : (sc.Baggage.map Prod.fst).Nodup) :
    injectTextMap sc carrier =
      (carrier ++ [(fieldT, FormatID sc.TraceID), (fieldS, FormatID sc.SpanID),
        (fieldL, formatLevel sc)]) ++
      sc.Baggage.map (fun kv => (strAppend fieldB kv.1, kv.2)) := by
  have hdisc : discover (carrier.map Prod.fst) = ⟨fieldT, fieldS, fieldL, fieldB⟩ := by
    apply discover_free
    intro k hk
    obtain ⟨e, he, heq⟩ := List.mem_map.mp hk
    exact heq ▸ hfree e he
  have hT : fieldT ∉ carrier.map Prod.fst :=
    not_mem_keys_of_free hfree (Or.inl strLower_fieldT)
  have hS : fieldS ∉ carrier.map Prod.fst :=
    not_mem_keys_of_free hfree (Or.inr (Or.inl strLower_fieldS))
  have hL : fieldL ∉ carrier.map Prod.fst :=
    not_mem_keys_of_free hfree (Or.inr (Or.inr (Or.inl strLower_fieldL)))
  have hS2 : fieldS ∉ (carrier ++ [(fieldT, FormatID sc.TraceID)]).map Prod.fst := by
    intro hmem
    rw [List.map_append] at hmem
    rcases List.mem_append.mp hmem with h | h
    · exact hS h
    · simp only [List.map_cons, List.map_nil, List.mem_singleton] at h
      exact absurd h (by decide)
  have hL2 : fieldL ∉ ((carrier ++ [(fieldT, FormatID sc.TraceID)]) ++
      [(fieldS, FormatID sc.SpanID)]).map Prod.fst := by
    intro hmem
    rw [List.map_append] at hmem
    rcases List.mem_append.mp hmem with h | h
    · rw [List.map_append] at h
      rcases List.mem_append.mp h with h1 | h1
      · exact hL h1
      · simp only [List.map_cons, List.map_nil, List.mem_singleton] at h1
        exact absurd h1 (by decide)
    · simp only [List.map_cons, List.map_nil, List.mem_singleton] at h
      exact absurd h (by decide)
  have hndm : ((sc.Baggage.map (fun kv : String × String =>
      (strAppend fieldB kv.1, kv.2))).map Prod.fst).Nodup := by
    have hmm : (sc.Baggage.map (fun kv : String × String =>
        (strAppend fieldB kv.1, kv.2))).map Prod.fst =
        (sc.Baggage.map Prod.fst).map (strAppend fieldB) := by
      simp only [List.map_map]
      rfl
    rw [hmm]
    exact hnd.map (fun a b => strAppend_left_inj fieldB)
  have hdd : ∀ kv ∈ sc.Baggage.map (fun kv : String × String =>
      (strAppend fieldB kv.1, kv.2)),
      kv.1 ∉ (((carrier ++ [(fieldT, FormatID sc.TraceID)]) ++
        [(fieldS, FormatID sc.SpanID)]) ++ [(fieldL, formatLevel sc)]).map Prod.fst := by
    intro kv hkv hmem
    obtain ⟨b0, hb0, hbeq⟩ := List.mem_map.mp hkv
    rw [← hbeq] at hmem
    rw [List.map_append] at hmem
    rcases List.mem_append.mp hmem with h | h
    · rw [List.map_append] at h
      rcases List.mem_append.mp h with h1 | h1
      · rw [List.map_append] at h1
        rcases List.mem_append.mp h1 with h2 | h2
        · refine not_mem_keys_of_free hfree ?_ h2
          right; right; right
          rw [strLower_bag_key]
          exact hasPfx_bag_key _
        · simp only [List.map_cons, List.map_nil, List.mem_singleton] at h2
          exact bag_key_ne_fieldT _ h2
      · simp only [List.map_cons, List.map_nil, List.mem_singleton] at h1
        exact bag_key_ne_fieldS _ h1
    · simp only [List.map_cons, List.map_nil, List.mem_singleton] at h
      exact bag_key_ne_fieldL _ h
  simp only [injectTextMap, hdisc]
  rw [mapSet_absent (FormatID sc.TraceID) hT]
  rw [mapSet_absent (FormatID sc.SpanID) hS2]
  rw [mapSet_absent (formatLevel sc) hL2]
  rw [← List.foldl_map (fun kv : String × String => (strAppend fieldB kv.1, kv.2))
    (fun m kv => mapSet m kv.1 kv.2)]
  rw [foldl_mapSet_eq hndm hdd]
  simp [List.append_assoc]

/-! ## Extraction of the injected entries -/

theorem extractTM_append (a b : List (String × String)) :
    ∀ (sc : SpanContext) (cnt : Nat),
      extractTM (a ++ b) sc cnt =
        match extractTM a sc cnt with
        | .ok (sc1, cnt1) => extractTM b sc1 cnt1
        | .error e => .error e := by
  induction a with
  | nil => intro sc cnt; rfl
  | cons e rest ih =>
    obtain ⟨k, v⟩ := e
    intro sc cnt
    simp only [List.cons_append, extractTM]
    cases extractStep sc cnt k v with
    | error e1 => rfl
    | ok p1 => exact ih p1.1 p1.2

theorem extractTM_skip_all (l : List (String × String))
    (h : ∀ e ∈ l, ¬ strLower e.1 = fieldT ∧ ¬ strLower e.1 = fieldS ∧
      ¬ strLower e.1 = fieldL ∧ hasPfx (strLower e.1) fieldB = false) :
    ∀ (sc : SpanContext) (cnt : Nat), extractTM l sc cnt = .ok (sc, cnt) := by
  induction l with
  | nil => intro sc cnt; rfl
  | cons e rest ih =>
    obtain ⟨k, v⟩ := e
    intro sc cnt
    obtain ⟨h1, h2, h3, h4⟩ := h (k, v) (List.mem_cons_self _ _)
    simp only [extractTM, extractStep_skip h1 h2 h3 h4]
    exact ih (fun e he => h e (List.mem_cons_of_mem _ he)) sc cnt

theorem extractTM_bag_entries (bl : List (String × String)) :
    ∀ (sc : SpanContext) (cnt : Nat),
      extractTM (bl.map (fun kv => (strAppend fieldB kv.1, kv.2))) sc cnt =
        .ok ({ sc with Baggage := bl.foldl (fun m kv => mapSet m kv.1 kv.2) sc.Baggage },
          cnt) := by
  induction bl with
  | nil => intro sc cnt; rfl
  | cons b0 rest ih =>
    obtain ⟨k, v⟩ := b0
    intro sc cnt
    have h1 : ¬ strLower (strAppend fieldB k) = fieldT := by
      rw [strLower_bag_key]
      exact bag_key_ne_fieldT _
    have h2 : ¬ strLower (strAppend fieldB k) = fieldS := by
      rw [strLower_bag_key]
      exact bag_key_ne_fieldS _
    have h3 : ¬ strLower (strAppend fieldB k) = fieldL := by
      rw [strLower_bag_key]
      exact bag_key_ne_fieldL _
    have h4 : hasPfx (strLower (strAppend fieldB k)) fieldB = true := by
      rw [strLower_bag_key]
      exact hasPfx_bag_key _
    simp only [List.map_cons, extractTM, extractStep_bag h1 h2 h3 h4, strDrop_bag_key]
    rw [ih]
    rfl

theorem parseLevel_formatLevel (sc : SpanContext) :
    parseLevel (formatLevel sc) = sc.Suppressed := by
  cases h : sc.Suppressed <;> simp [parseLevel, formatLevel, h]

/-- C7 (amended): for every span context with well-formed baggage and 64-bit
identifiers and every carrier none of whose keys case-insensitively matches
the trace, span or level field or carries the baggage prefix, injecting and
then extracting through the carrier round-trips `TraceID`, `SpanID`, the
suppression flag, and exactly the baggage entries. -/
theorem inject_extract_roundtrip (sc : SpanContext) (carrier : List (String × String))
    (hfree : ∀ e ∈ carrier, ¬ strLower e.1 = fieldT ∧ ¬ strLower e.1 = fieldS ∧
      ¬ strLower e.1 = fieldL ∧ hasPfx (strLower e.1) fieldB = false)
    (hnd : (sc.Baggage.map Prod.fst).Nodup)
    (ht : sc.TraceID < 2 ^ 64) (hs : sc.SpanID < 2 ^ 64) :
    extractTextMap (injectTextMap sc carrier) =
      .ok { TraceID := sc.TraceID, SpanID := sc.SpanID, Suppressed := sc.Suppressed,
            Baggage := sc.Baggage } := by
  rw [injectTextMap_free sc carrier hfree hnd]
  rw [List.append_assoc]
  simp only [extractTextMap]
  rw [extractTM_append]
  rw [extractTM_skip_all carrier hfree]
  simp only [List.cons_append, List.nil_append, extractTM,
    extractStep_t strLower_fieldT (ParseID_FormatID ht),
    extractStep_s strLower_fieldS (ParseID_FormatID hs),
    extractStep_l strLower_fieldL]
  simp only [List.append_eq, List.nil_append]
  rw [extractTM_bag_entries]
  rw [foldl_mapSet_eq hnd (by simp)]
  rw [parseLevel_formatLevel]
  norm_num

theorem inject_extract_roundtrip_w :
    extractTextMap (injectTextMap
      { TraceID := 3, SpanID := 4, Suppressed := true, Baggage := [("u", "a")] }
      [("other", "x")]) =
      .ok { TraceID := 3, SpanID := 4, Suppressed := true, Baggage := [("u", "a")] } :=
  inject_extract_roundtrip
    { TraceID := 3, SpanID := 4, Suppressed := true, Baggage := [("u", "a")] }
    [("other", "x")] (by decide) (by decide) (by decide) (by decide)

/-- C7 counterexample: a carrier already holding the baggage-prefixed key
`x-instana-b-extra` makes inject-then-extract return a baggage set containing
`extra`, which the injected context's (empty) baggage does not contain, so the
round trip fails for this carrier even though it supports read and write. -/
theorem inject_extract_stray_baggage_cex :
    extractTextMap (injectTextMap { TraceID := 1, SpanID := 2 }
      [("x-instana-b-extra", "1")]) =
      .ok { TraceID := 1, SpanID := 2, Baggage := [("extra", "1")] } ∧
    ({ TraceID := 1, SpanID := 2 } : SpanContext).Baggage = [] :=
  ⟨by decide, rfl⟩
